import Mathlib

/-!
Verification of the Suncity application-form rendering engine.

The development shallowly embeds the string-level layout logic of the three
rendering paths found in the repository:

* the interactive preview page (`renderCharacterBoxes`, `renderApplicantForm`,
  `renderApartmentForm`, and the per-page gating in `PreviewPage`);
* the document backend `lib/html-renderer.ts`
  (`renderCharacterBoxesHTML`, `renderSignatureFooterHTML`,
  `renderApplicantFormHTML`, `renderApartmentFormHTML`);
* the second document-backend variant of the same four functions.

Strings are modelled as lists of characters; a JS string field that may be
`undefined` is modelled by the empty list (both are falsy and are normalised
with `|| ''` before use), and a JS value that may be `null`/`undefined` as a
whole is modelled with `Option`.  Pixel quantities are rationals.
-/

namespace SuncityForm

/-- A form string value, as its list of characters. -/
abbrev Str := List Char

/-- One applicant's record, as consumed by the renderers.  Every field is a
string; an absent (`undefined`) field is the empty string, matching the
renderers' `applicant.field || ''` normalisation.  `photograph` and
`signature` hold the image data URL, empty when no image was uploaded. -/
structure ApplicantData where
  title : Str := []
  name : Str := []
  sonWifeDaughterOf : Str := []
  nationality : Str := []
  age : Str := []
  dob : Str := []
  profession : Str := []
  aadhaar : Str := []
  residentialStatus : Str := []
  pan : Str := []
  itWard : Str := []
  correspondenceAddress : Str := []
  telNo : Str := []
  phone : Str := []
  email : Str := []
  photograph : Str := []
  signature : Str := []

/-- The top-level form dataset (`FormData` in the source): the applicant
array plus the apartment/declaration fields consumed by
`renderApartmentFormHTML`. -/
structure FormData where
  applicants : List ApplicantData := []
  tower : Str := []
  apartmentNumber : Str := []
  bhkType : Str := []
  floor : Str := []
  carpetAreaSqm : Str := []
  carpetAreaSqft : Str := []
  unitPrice : Str := []
  totalPrice : Str := []
  declarationDate : Str := []
  declarationPlace : Str := []

/-! ## Character-cell tokenizer

`renderCharacterBoxes` (preview) and `renderCharacterBoxesHTML` (both
document backends) share the same cell-content logic:

    const chars = value ? value.toString().split('').slice(0, boxCount) : [];
    ... Array.from({ length: boxCount }, (_, i) => chars[i] || '')

A cell is an `Option Char`: `none` is the empty cell. -/

/-- Cell contents of one character-box row.  `value = none` models a
`null`/`undefined` value (falsy, like the empty string). -/
def tokenizeRow (value : Option Str) (boxCount : Nat) : List (Option Char) :=
  let chars : Str :=
    match value with
    | none => []
    | some s => s.take boxCount
  (List.range boxCount).map (fun i => chars[i]?)

/-- The non-empty cells of a row, in order. -/
def stripRow (row : List (Option Char)) : Str :=
  row.filterMap id

/-! ## Row geometry

Preview (`renderCharacterBoxes`):
`totalWidth = (boxWidth + (borderWidth * 2)) * boxCount` with
`borderWidth = 1.5`.

Document backend (`renderCharacterBoxesHTML` in `lib/html-renderer.ts`):
`totalWidth = (boxWidth + (BORDER_WIDTH * 2)) * boxCount` with module
constant `BORDER_WIDTH = 1.5`. -/

/-- `lib/html-renderer.ts` module constant `BORDER_WIDTH = 1.5`. -/
def BORDER_WIDTH : ℚ := 3 / 2

/-- `lib/html-renderer.ts` module constant `BOX_WIDTH = 20`. -/
def BOX_WIDTH : ℚ := 20

/-- Total row width as computed by the interactive preview's
`renderCharacterBoxes`, parameterised over the layout constants. -/
def previewTotalRowWidth (boxWidth borderWidth : ℚ) (boxCount : Nat) : ℚ :=
  (boxWidth + borderWidth * 2) * boxCount

/-- Total row width as computed by the document backend's
`renderCharacterBoxesHTML`, parameterised over the layout constants. -/
def documentTotalRowWidth (boxWidth borderWidth : ℚ) (boxCount : Nat) : ℚ :=
  (boxWidth + borderWidth * 2) * boxCount

/-! ## Multi-row chunking

Multi-line fields are split with `value.match(/.{1,20}/g) || []`: the
JavaScript regex `.` (without the dotAll flag) matches any character except
the four line terminators `'\n'`, `'\r'`, U+2028 and U+2029, so a match is
a run of at most 20 consecutive non-terminator characters and the global
search skips the terminator characters themselves.  Equivalently: split the
string at line terminators, then cut each terminator-free run into
successive chunks of at most `c` characters. -/

/-- The JavaScript line terminators, the characters the regex `.` does not
match: `'\n'`, `'\r'`, U+2028 (line separator), U+2029 (paragraph
separator). -/
def isLineTerminator (ch : Char) : Bool :=
  ch == '\n' || ch == '\r' || ch == '\u2028' || ch == '\u2029'

/-- Prepend a character to the first piece of a non-empty list of pieces. -/
def consHead (ch : Char) : List Str → List Str
  | [] => [[ch]]
  | l :: ls => (ch :: l) :: ls

/-- Split a character list at line-terminator separators (the separators
are dropped; empty runs are kept). -/
def splitLines : Str → List Str
  | [] => [[]]
  | ch :: rest =>
    if isLineTerminator ch then [] :: splitLines rest
    else consHead ch (splitLines rest)

/-- Fuel-indexed worker cutting a list into successive chunks of at most `c`
characters; `fuel` bounds the recursion depth. -/
def toChunksAux (c : Nat) : Nat → Str → List Str
  | 0, _ => []
  | _ + 1, [] => []
  | fuel + 1, x :: xs => ((x :: xs).take c) :: toChunksAux c fuel ((x :: xs).drop c)

/-- Cut a list into successive chunks of at most `c` characters. -/
def toChunks (c : Nat) (l : Str) : List Str :=
  toChunksAux c l.length l

/-- The chunk list produced by `value.match(/.{1,c}/g) || []`. -/
def jsChunks (c : Nat) (s : Str) : List Str :=
  (splitLines s).flatMap (toChunks c)

/-- The `r` cell rows of a multi-line field: row `i` tokenizes
`lines[i] || ''` into `c` cells, exactly as in
`Array.from({length: r}, (_, i) => renderCharacterBoxes(lines[i] || '', c))`. -/
def multiRowCells (value : Str) (c r : Nat) : List (List (Option Char)) :=
  (List.range r).map (fun i => tokenizeRow (some ((jsChunks c value).getD i [])) c)

/-- Concatenation of the multi-row cells with the empty cells stripped. -/
def reconstructRows (value : Str) (c r : Nat) : Str :=
  ((multiRowCells value c r).map stripRow).flatten

/-! ## Applicant-block gating

Both document backends begin `renderApplicantFormHTML` with

    if (!applicant || (!applicant.name && applicantNumber > 1)) return '';

and the preview's `renderApplicantForm` with the same test returning `null`.
The preview page additionally gates the joint-applicant pages on the stored
`applicantCount` hint:

    if (applicantCount >= 2 && formData.applicants[1] && formData.applicants[1].name)
-/

/-- Whether `renderApplicantFormHTML` (document backends) produces any
output for the given applicant slot, `true` unless it takes the early
`return ''`. -/
def documentRendersApplicant (applicant : Option ApplicantData) (applicantNumber : Nat) : Bool :=
  match applicant with
  | none => false
  | some a => !(a.name.isEmpty && decide (1 < applicantNumber))

/-- Whether the preview's `renderApplicantForm` produces any output
(`true` unless it takes the early `return null`). -/
def previewApplicantFormRenders (applicant : Option ApplicantData) (applicantNumber : Nat) : Bool :=
  match applicant with
  | none => false
  | some a => !(a.name.isEmpty && decide (1 < applicantNumber))

/-- Whether the preview page renders the joint-applicant block stored at
array index `idx` (pages 6 and 7 use `idx = 1, 2`): the page is emitted only
when `applicantCount >= idx + 1 && formData.applicants[idx] &&
formData.applicants[idx].name` and the inner `renderApplicantForm` guard
also passes. -/
def previewRendersJointSlot (applicants : List ApplicantData) (idx applicantCount : Nat) : Bool :=
  decide (idx + 1 ≤ applicantCount) &&
    (match applicants[idx]? with
     | none => false
     | some a => !a.name.isEmpty) &&
    previewApplicantFormRenders applicants[idx]? (idx + 1)

/-! ## Signature footer -/

/-- Truthiness of `formData.applicants[i]?.signature`. -/
def signatureAt (fd : FormData) (i : Nat) : Bool :=
  match fd.applicants[i]? with
  | none => false
  | some a => !a.signature.isEmpty

/-- The signature value at slot `i` (empty when absent). -/
def sigValueAt (fd : FormData) (i : Nat) : Str :=
  match fd.applicants[i]? with
  | none => []
  | some a => a.signature

/-- Abstraction of `renderSignatureFooterHTML` in `lib/html-renderer.ts`:
the list of signature slots the footer emits, each `(slot index, image
value)`.  The function returns `''` when neither signature is present and
otherwise appends one block per present signature. -/
def documentSignatureFooter (fd : FormData) : List (Nat × Str) :=
  if signatureAt fd 0 || signatureAt fd 1 then
    (if signatureAt fd 0 then [(0, sigValueAt fd 0)] else []) ++
      (if signatureAt fd 1 then [(1, sigValueAt fd 1)] else [])
  else []

/-- Abstraction of the second document-backend variant of
`renderSignatureFooterHTML`; its presence logic is the same. -/
def documentSignatureFooterAlt (fd : FormData) : List (Nat × Str) :=
  if signatureAt fd 0 || signatureAt fd 1 then
    (if signatureAt fd 0 then [(0, sigValueAt fd 0)] else []) ++
      (if signatureAt fd 1 then [(1, sigValueAt fd 1)] else [])
  else []

/-- Abstraction of the preview's signature section: `renderApplicantForm`
renders it exactly when `applicantNumber === 1`, always with both slots
(each slot shows the image when present and a placeholder caption
otherwise). -/
def previewSignatureFooter (applicant : ApplicantData) (applicantNumber : Nat)
    (fd : FormData) : List (Nat × Str) :=
  if applicantNumber = 1 then
    [(0, applicant.signature), (1, sigValueAt fd 1)]
  else []

/-! ## Money normalisation and unit-type display -/

/-- `price.replace(/[₹,]/g, '')`: remove every rupee sign and comma (the
`value ? value.replace(...) : ''` guard is the identity on the empty
string). -/
def cleanMoney (s : Str) : Str :=
  s.filter (fun ch => !(ch == '₹' || ch == ','))

/-- Modelled from the spec's words, for comparison with `cleanMoney`:
"strip all non-digit/non-decimal-separator characters", i.e. keep exactly
the digits and the decimal separator. -/
def specMoneyStrip (s : Str) : Str :=
  s.filter (fun ch => ch.isDigit || ch == '.')

/-- Unit-type display string of both document backends:
`bhkType === '3bhk' ? '3 BHK' : bhkType === '4bhk' ? '4 BHK' : ''`. -/
def bhkDisplayDocument (bhkType : Str) : Str :=
  if bhkType = "3bhk".toList then "3 BHK".toList
  else if bhkType = "4bhk".toList then "4 BHK".toList
  else []

/-- Unit-type display string of the preview's `renderApartmentForm`:
`bhkType ? (bhkType === '3bhk' ? '3 BHK' : '4 BHK') : ''`. -/
def bhkDisplayPreview (bhkType : Str) : Str :=
  if bhkType.isEmpty then []
  else if bhkType = "3bhk".toList then "3 BHK".toList
  else "4 BHK".toList

/-! ## Residential-status checkboxes

All render paths draw three checkboxes whose checked state is an exact
string comparison of the stored value against the three enumerated
values. -/

/-- First enumerated residential status. -/
def residentStr : Str := "Resident".toList

/-- Second enumerated residential status. -/
def nonResidentStr : Str := "Non-Resident".toList

/-- Third enumerated residential status. -/
def foreignOriginStr : Str := "Foreign National of Indian Origin".toList

/-- Checked state of the three residential-status checkboxes, in render
order. -/
def residentialCheckboxes (status : Str) : List Bool :=
  [decide (status = residentStr),
   decide (status = nonResidentStr),
   decide (status = foreignOriginStr)]

/-! ## Concrete records used by counterexamples and witnesses -/

/-- An applicant record with every field empty. -/
def blankApplicant : ApplicantData := {}

/-- An applicant record whose only non-empty field is the name. -/
def namedApplicant : ApplicantData := { name := ['B'] }

/-- A dataset with a single blank applicant: no signatures anywhere. -/
def blankFormData : FormData := { applicants := [blankApplicant] }

/-! ## Tokenizer lemmas -/

theorem range_map_getElem (t : List Char) (n : Nat) :
    (List.range n).map (fun i => t[i]?) =
      (t.take n).map some ++ List.replicate (n - t.length) none := by
  induction t generalizing n with
  | nil =>
    simp only [List.getElem?_nil, List.take_nil, List.map_nil, List.nil_append,
      List.length_nil, Nat.sub_zero]
    rw [List.map_const', List.length_range]
  | cons a t ih =>
    cases n with
    | zero => simp
    | succ m =>
      rw [List.range_succ_eq_map, List.map_cons, List.map_map]
      have hcomp :
          ((fun i => (a :: t)[i]?) ∘ Nat.succ) = fun i => t[i]? := by
        funext i
        simp
      rw [hcomp, ih, List.take_succ_cons, List.map_cons]
      simp [Nat.succ_sub_succ]

theorem tokenizeRow_some (s : Str) (n : Nat) :
    tokenizeRow (some s) n =
      (s.take n).map some ++ List.replicate (n - s.length) none := by
  unfold tokenizeRow
  have h : (List.range n).map (fun i => (s.take n)[i]?) =
      (List.range n).map (fun i => s[i]?) := by
    refine List.map_congr_left ?_
    intro i hi
    rw [List.getElem?_take, if_pos (List.mem_range.mp hi)]
  rw [h, range_map_getElem]

theorem tokenizeRow_length (v : Option Str) (n : Nat) :
    (tokenizeRow v n).length = n := by
  unfold tokenizeRow
  cases v <;> simp

theorem tokenizeRow_none (n : Nat) :
    tokenizeRow none n = List.replicate n none := by
  unfold tokenizeRow
  simp only [List.getElem?_nil]
  rw [List.map_const', List.length_range]

theorem tokenizeRow_truncate (s : Str) (n : Nat) :
    tokenizeRow (some s) n = tokenizeRow (some (s.take n)) n := by
  rw [tokenizeRow_some, tokenizeRow_some, List.take_take, min_self, List.length_take]
  have h : n - s.length = n - (n ⊓ s.length) := by omega
  rw [h]

theorem filterMap_id_replicate_none (k : Nat) :
    List.filterMap id (List.replicate k (none : Option Char)) = [] := by
  induction k with
  | zero => rfl
  | succ m ih => rw [List.replicate_succ, List.filterMap_cons]; exact ih

theorem stripRow_tokenizeRow (s : Str) (n : Nat) :
    stripRow (tokenizeRow (some s) n) = s.take n := by
  rw [tokenizeRow_some, stripRow, List.filterMap_append, filterMap_id_replicate_none,
    List.append_nil, List.filterMap_map]
  simp

theorem tokenizeRow_cells (s : Str) (n : Nat) {x : Option Char}
    (hx : x ∈ tokenizeRow (some s) n) : x = none ∨ ∃ ch ∈ s, x = some ch := by
  rw [tokenizeRow_some] at hx
  rcases List.mem_append.mp hx with hx | hx
  · rcases List.mem_map.mp hx with ⟨ch, hch, rfl⟩
    exact Or.inr ⟨ch, (List.take_sublist n s).mem hch, rfl⟩
  · exact Or.inl (List.eq_of_mem_replicate hx)

/-! ## Chunking lemmas -/

theorem consHead_flatten (ch : Char) (L : List Str) :
    (consHead ch L).flatten = ch :: L.flatten := by
  cases L <;> simp [consHead]

theorem splitLines_flatten (s : Str) :
    (splitLines s).flatten = s.filter (fun ch => !(isLineTerminator ch)) := by
  induction s with
  | nil => simp [splitLines]
  | cons ch rest ih =>
    cases h : isLineTerminator ch with
    | true => simp [splitLines, h, ih]
    | false =>
      simp only [splitLines, h, Bool.false_eq_true, if_false, consHead_flatten, ih,
        List.filter_cons]
      simp [h]

theorem splitLines_no_terminator (s : Str) :
    ∀ run ∈ splitLines s, ∀ x ∈ run, isLineTerminator x = false := by
  induction s with
  | nil =>
    intro run hrun x hx
    simp only [splitLines, List.mem_singleton] at hrun
    subst hrun
    simp at hx
  | cons ch rest ih =>
    intro run hrun x hx
    cases h : isLineTerminator ch with
    | true =>
      rw [splitLines, if_pos h] at hrun
      rcases List.mem_cons.mp hrun with rfl | hrun
      · simp at hx
      · exact ih run hrun x hx
    | false =>
      rw [splitLines, if_neg (by simp [h])] at hrun
      cases hsplit : splitLines rest with
      | nil =>
        rw [hsplit] at hrun
        simp only [consHead, List.mem_singleton] at hrun
        subst hrun
        rcases List.mem_singleton.mp hx with rfl
        exact h
      | cons l ls =>
        rw [hsplit] at hrun
        simp only [consHead, List.mem_cons] at hrun
        rcases hrun with rfl | hrun
        · rcases List.mem_cons.mp hx with rfl | hl
          · exact h
          · exact ih l (hsplit ▸ List.mem_cons_self l ls) x hl
        · exact ih run (hsplit ▸ List.mem_cons_of_mem l hrun) x hx

theorem toChunksAux_flatten {c : Nat} (hc : 1 ≤ c) :
    ∀ (fuel : Nat) (l : Str), l.length ≤ fuel → (toChunksAux c fuel l).flatten = l := by
  intro fuel
  induction fuel with
  | zero =>
    intro l hl
    rw [List.length_eq_zero.mp (Nat.le_zero.mp hl)]
    rfl
  | succ m ih =>
    intro l hl
    cases l with
    | nil => rfl
    | cons x xs =>
      rw [toChunksAux, List.flatten_cons, ih _ ?_, List.take_append_drop]
      rw [List.length_drop]
      simp only [List.length_cons] at hl ⊢
      omega

theorem toChunksAux_mem_length {c fuel : Nat} {l ch : Str}
    (h : ch ∈ toChunksAux c fuel l) : ch.length ≤ c := by
  induction fuel generalizing l with
  | zero => simp [toChunksAux] at h
  | succ m ih =>
    cases l with
    | nil => simp [toChunksAux] at h
    | cons x xs =>
      rw [toChunksAux] at h
      rcases List.mem_cons.mp h with rfl | h
      · rw [List.length_take]; exact inf_le_left
      · exact ih h

theorem toChunksAux_mem_mem {c fuel : Nat} {l ch : Str} {x : Char}
    (h : ch ∈ toChunksAux c fuel l) (hx : x ∈ ch) : x ∈ l := by
  induction fuel generalizing l with
  | zero => simp [toChunksAux] at h
  | succ m ih =>
    cases l with
    | nil => simp [toChunksAux] at h
    | cons y ys =>
      rw [toChunksAux] at h
      rcases List.mem_cons.mp h with rfl | h
      · exact (List.take_sublist _ _).mem hx
      · exact (List.drop_sublist _ _).mem (ih h)

theorem jsChunks_flatten {c : Nat} (hc : 1 ≤ c) (s : Str) :
    (jsChunks c s).flatten = s.filter (fun ch => !(isLineTerminator ch)) := by
  rw [jsChunks, ← splitLines_flatten]
  induction splitLines s with
  | nil => rfl
  | cons run rest ih =>
    rw [List.flatMap_cons, List.flatten_append, ih, List.flatten_cons, toChunks,
      toChunksAux_flatten hc _ _ le_rfl]

theorem jsChunks_mem_length {c : Nat} {s ch : Str}
    (h : ch ∈ jsChunks c s) : ch.length ≤ c := by
  rcases List.mem_flatMap.mp h with ⟨run, _, hch⟩
  exact toChunksAux_mem_length hch

theorem jsChunks_no_terminator {c : Nat} {s ch : Str} {x : Char}
    (h : ch ∈ jsChunks c s) (hx : x ∈ ch) : isLineTerminator x = false := by
  rcases List.mem_flatMap.mp h with ⟨run, hrun, hch⟩
  exact splitLines_no_terminator s run hrun x (toChunksAux_mem_mem hch hx)

/-! ## Multi-row reconstruction lemmas -/

theorem flatten_getD_range {α : Type} (L : List (List α)) (r : Nat) :
    ((List.range r).map (fun i => L.getD i [])).flatten = (L.take r).flatten := by
  induction r with
  | zero => simp
  | succ m ih =>
    rw [List.range_succ, List.map_append, List.flatten_append, ih, List.take_succ,
      List.flatten_append]
    simp only [List.map_cons, List.map_nil, List.flatten_cons, List.flatten_nil,
      List.append_nil]
    rw [List.getD_eq_getElem?_getD]
    cases L[m]? <;> simp

theorem reconstructRows_eq (c : Nat) (s : Str) (r : Nat) :
    reconstructRows s c r = ((jsChunks c s).take r).flatten := by
  unfold reconstructRows multiRowCells
  rw [List.map_map]
  have h : ∀ i ∈ List.range r,
      (stripRow ∘ fun i => tokenizeRow (some ((jsChunks c s).getD i [])) c) i =
        (jsChunks c s).getD i [] := by
    intro i _
    simp only [Function.comp_apply]
    rw [stripRow_tokenizeRow]
    rcases Nat.lt_or_ge i (jsChunks c s).length with hi | hi
    · apply List.take_of_length_le
      have hmem : (jsChunks c s).getD i [] ∈ jsChunks c s := by
        rw [List.getD_eq_getElem _ _ hi]
        exact List.getElem_mem hi
      exact jsChunks_mem_length hmem
    · rw [List.getD_eq_default _ _ hi, List.take_nil]
  rw [List.map_congr_left h, flatten_getD_range]

theorem flatten_length_le {α : Type} (L : List (List α)) (c : Nat)
    (h : ∀ x ∈ L, x.length ≤ c) : L.flatten.length ≤ c * L.length := by
  induction L with
  | nil => simp
  | cons hd tl ih =>
    rw [List.flatten_cons, List.length_append, List.length_cons]
    calc hd.length + tl.flatten.length
        ≤ c + c * tl.length := by
          exact Nat.add_le_add (h hd (List.mem_cons_self hd tl))
            (ih fun x hx => h x (List.mem_cons_of_mem hd hx))
      _ = c * (tl.length + 1) := by ring

theorem tokenizeRow_getD_ne_newline {v : Str} (hv : '\n' ∉ v) (n j : Nat) :
    (tokenizeRow (some v) n).getD j none ≠ some '\n' := by
  rcases Nat.lt_or_ge j (tokenizeRow (some v) n).length with hj | hj
  · rw [List.getD_eq_getElem _ _ hj]
    intro hcontra
    rcases tokenizeRow_cells v n (hcontra ▸ List.getElem_mem hj) with h | ⟨ch, hch, hsome⟩
    · exact Option.noConfusion h
    · cases Option.some.inj hsome
      exact hv hch
  · rw [List.getD_eq_default _ _ hj]
    exact Option.noConfusion

/-! ## Claim theorems -/

/-- C1: for every layout configuration and cell count, the total row width
equals `cellCount * (cellWidth + 2 * borderWidth)`, it is a pure function of
the constants and the count, and the interactive preview backend and the
document backend compute the same total row width for the same constants. -/
theorem claim_C1_rowWidth_agrees (w b : ℚ) (n : Nat) :
    documentTotalRowWidth w b n = n * (w + 2 * b) ∧
    previewTotalRowWidth w b n = documentTotalRowWidth w b n := by
  refine ⟨?_, rfl⟩
  unfold documentTotalRowWidth
  ring

/-- C2 counterexample: the preview page's decision to render joint-applicant
slot 1 changes when only the `applicantCount` hint changes (name present,
count 2 renders; same data with count 1 does not), so rendering is not
decided by name-presence alone. -/
theorem claim_C2_counterexample :
    previewRendersJointSlot [blankApplicant, namedApplicant] 1 2 = true ∧
    previewRendersJointSlot [blankApplicant, namedApplicant] 1 1 = false := by
  decide

/-- C2 (amended): an applicant block at index ≥ 1 with an empty name is
never rendered, in the document backends and in the preview, regardless of
the `applicantCount` hint; but the preview renders a joint block exactly
when the name is present AND the `applicantCount` hint reaches the slot, so
the count field does take part in the preview's decision. -/
theorem claim_C2_amended (a : ApplicantData) (n : Nat) (apps : List ApplicantData)
    (idx count : Nat) :
    (a.name = [] → 1 < n → documentRendersApplicant (some a) n = false) ∧
    (∀ a2, apps[idx]? = some a2 → a2.name = [] →
      previewRendersJointSlot apps idx count = false) ∧
    (previewRendersJointSlot apps idx count = true ↔
      idx + 1 ≤ count ∧ ∃ a2, apps[idx]? = some a2 ∧ a2.name ≠ []) := by
  refine ⟨?_, ?_, ?_⟩
  · intro h1 h2
    simp [documentRendersApplicant, h1, h2]
  · intro a2 h1 h2
    simp [previewRendersJointSlot, h1, h2]
  · cases h : apps[idx]? with
    | none => simp [previewRendersJointSlot, h]
    | some a2 =>
      cases hname : a2.name.isEmpty with
      | true =>
        have hnil : a2.name = [] := by simpa using hname
        simp [previewRendersJointSlot, h, previewApplicantFormRenders, hname, hnil]
      | false =>
        have hnil : a2.name ≠ [] := by simpa using hname
        simp [previewRendersJointSlot, h, previewApplicantFormRenders, hname, hnil]

/-- C2 witness: the amended theorem applied to the blank applicant at slot
number 2 of the document backend. -/
theorem claim_C2_witness :
    documentRendersApplicant (some blankApplicant) 2 = false :=
  (claim_C2_amended blankApplicant 2 [] 0 0).1 rfl (by decide)

/-- C3: a character-cell row for `s` has exactly `n` cells; when
`len s ≤ n` the first `len s` cells are the characters of `s` in order and
the rest are empty; when `len s > n` the row equals the row of the first `n`
characters (pure truncation); an absent or empty value yields all-empty
cells (and the function is total, so nothing is thrown). -/
theorem claim_C3_tokenizeRow (s : Str) (n : Nat) :
    (tokenizeRow (some s) n).length = n ∧
    (tokenizeRow none n).length = n ∧
    (s.length ≤ n →
      tokenizeRow (some s) n = s.map some ++ List.replicate (n - s.length) none) ∧
    tokenizeRow (some s) n = tokenizeRow (some (s.take n)) n ∧
    tokenizeRow none n = List.replicate n none ∧
    tokenizeRow (some []) n = List.replicate n none := by
  refine ⟨tokenizeRow_length _ _, tokenizeRow_length _ _, ?_,
    tokenizeRow_truncate s n, tokenizeRow_none n, ?_⟩
  · intro h
    rw [tokenizeRow_some, List.take_of_length_le h]
  · rw [tokenizeRow_some]
    simp

/-- C3 witness: the short-string clause of `claim_C3_tokenizeRow` at the
concrete value `"ab"` in a 5-cell row. -/
theorem claim_C3_witness :
    tokenizeRow (some "ab".toList) 5 =
      "ab".toList.map some ++ List.replicate (5 - "ab".toList.length) none :=
  (claim_C3_tokenizeRow "ab".toList 5).2.2.1 (by decide)

/-- C4 counterexample: with no signature anywhere, the document backend's
footer is omitted but the preview still renders the footer section on the
primary applicant block (with placeholder slots), so "footer visible iff a
signature is present" does not hold in every render backend. -/
theorem claim_C4_counterexample :
    signatureAt blankFormData 0 = false ∧ signatureAt blankFormData 1 = false ∧
    documentSignatureFooter blankFormData = [] ∧
    previewSignatureFooter blankApplicant 1 blankFormData ≠ [] := by
  decide

/-- C4 (amended): in both document backends the signature footer is
rendered iff at least one of the two signature images is present (both
absent means the footer region is omitted entirely); the interactive
preview instead renders the footer exactly on the primary block
(`applicantNumber = 1`), with placeholder slots when signatures are
absent. -/
theorem claim_C4_amended (fd : FormData) (a : ApplicantData) (n : Nat) :
    (documentSignatureFooter fd ≠ [] ↔
      (signatureAt fd 0 = true ∨ signatureAt fd 1 = true)) ∧
    (documentSignatureFooterAlt fd ≠ [] ↔
      (signatureAt fd 0 = true ∨ signatureAt fd 1 = true)) ∧
    (previewSignatureFooter a n fd ≠ [] ↔ n = 1) := by
  refine ⟨?_, ?_, ?_⟩
  · unfold documentSignatureFooter
    cases h0 : signatureAt fd 0 <;> cases h1 : signatureAt fd 1 <;> simp
  · unfold documentSignatureFooterAlt
    cases h0 : signatureAt fd 0 <;> cases h1 : signatureAt fd 1 <;> simp
  · unfold previewSignatureFooter
    by_cases hn : n = 1 <;> simp [hn]

/-- C5 counterexample: the money pre-pass removes only `₹` and `,`; on the
input `"$5"` it keeps the dollar sign while the spec's "strip all
non-digit/non-decimal-separator characters" would produce `"5"`. -/
theorem claim_C5_counterexample :
    cleanMoney ['$', '5'] = ['$', '5'] ∧ specMoneyStrip ['$', '5'] = ['5'] ∧
    cleanMoney ['$', '5'] ≠ specMoneyStrip ['$', '5'] := by
  decide

/-- C5 (amended): the pre-pass applied to the unit-price and total-price
fields strips exactly the rupee sign `₹` and comma characters, keeping
every other character in order (it is not a general non-digit filter); in
particular `"₹12,34,567"` yields the digits `"1234567"`. -/
theorem claim_C5_amended (s : Str) :
    (cleanMoney s).Sublist s ∧
    (∀ ch ∈ cleanMoney s, ch ≠ '₹' ∧ ch ≠ ',') ∧
    (∀ ch ∈ s, ch ≠ '₹' → ch ≠ ',' → ch ∈ cleanMoney s) ∧
    cleanMoney "₹12,34,567".toList = "1234567".toList := by
  refine ⟨List.filter_sublist s, ?_, ?_, by decide⟩
  · intro ch hch
    have h := (List.mem_filter.mp hch).2
    simp only [Bool.not_eq_true', Bool.or_eq_false_iff, beq_eq_false_iff_ne] at h
    exact h
  · intro ch hch h1 h2
    exact List.mem_filter.mpr ⟨hch, by simp [h1, h2]⟩

/-- C5 witness: the preservation clause of `claim_C5_amended` at the
concrete character `'5'` of `"$5"`. -/
theorem claim_C5_witness : '5' ∈ cleanMoney ['$', '5'] :=
  (claim_C5_amended ['$', '5']).2.2.1 '5' (by decide) (by decide) (by decide)

/-- C6 counterexample: the multi-row chunker splits at newlines (the regex
`.` never matches `'\n'`), so for `"a\nb"` the concatenated stripped rows
are `"ab"`, which is not a prefix of the original string. -/
theorem claim_C6_counterexample :
    reconstructRows ['a', '\n', 'b'] 20 2 = ['a', 'b'] ∧
    ¬ reconstructRows ['a', '\n', 'b'] 20 2 <+: ['a', '\n', 'b'] := by
  decide

/-- C6 (amended): concatenating the rows of the multi-row tokenizer and
stripping the empty cells reconstructs a prefix of `s` with its
line-terminator characters (`'\n'`, `'\r'`, U+2028, U+2029 — the characters
the regex `.` does not match) removed, of length at most `c * r` (trailing
rows beyond the chunks are entirely empty and chunks beyond `r` rows are
dropped); for a terminator-free `s` this is a prefix of `s` itself. -/
theorem claim_C6_amended (s : Str) (c r : Nat) (hc : 1 ≤ c) :
    reconstructRows s c r <+: s.filter (fun ch => !(isLineTerminator ch)) ∧
    (reconstructRows s c r).length ≤ c * r := by
  constructor
  · rw [reconstructRows_eq]
    refine ⟨((jsChunks c s).drop r).flatten, ?_⟩
    rw [← List.flatten_append, List.take_append_drop, jsChunks_flatten hc]
  · rw [reconstructRows_eq]
    calc ((jsChunks c s).take r).flatten.length
        ≤ c * ((jsChunks c s).take r).length :=
          flatten_length_le _ c
            (fun x hx => jsChunks_mem_length ((List.take_sublist r _).mem hx))
      _ ≤ c * r := Nat.mul_le_mul_left c (by rw [List.length_take]; exact inf_le_left)

/-- C6 witness: the amended theorem at the concrete value `"hello"` with 20
cells per row and 2 rows. -/
theorem claim_C6_witness :
    (1 : Nat) ≤ 20 ∧
      (reconstructRows "hello".toList 20 2 <+:
          "hello".toList.filter (fun ch => !(isLineTerminator ch)) ∧
        (reconstructRows "hello".toList 20 2).length ≤ 20 * 2) :=
  ⟨by decide, claim_C6_amended "hello".toList 20 2 (by decide)⟩

/-- C7 counterexample: for the unrecognized stored value `"5bhk"` the
preview displays `"4 BHK"` while the document backends display the empty
string, so "unrecognized value maps to empty in every render backend" is
false. -/
theorem claim_C7_counterexample :
    bhkDisplayPreview "5bhk".toList = "4 BHK".toList ∧
    bhkDisplayDocument "5bhk".toList = [] ∧
    "4 BHK".toList ≠ ([] : Str) := by
  decide

/-- C7 (amended): the document backends map `3bhk ↦ "3 BHK"`,
`4bhk ↦ "4 BHK"` and anything else (including unset) to the empty string;
the preview maps the unset value to empty and `3bhk` to `"3 BHK"`, but maps
every other non-empty value — recognized or not — to `"4 BHK"`. -/
theorem claim_C7_amended (s : Str) :
    bhkDisplayDocument "3bhk".toList = "3 BHK".toList ∧
    bhkDisplayDocument "4bhk".toList = "4 BHK".toList ∧
    (s ≠ "3bhk".toList → s ≠ "4bhk".toList → bhkDisplayDocument s = []) ∧
    bhkDisplayPreview [] = [] ∧
    bhkDisplayPreview "3bhk".toList = "3 BHK".toList ∧
    (s ≠ [] → s ≠ "3bhk".toList → bhkDisplayPreview s = "4 BHK".toList) := by
  refine ⟨by decide, by decide, ?_, by decide, by decide, ?_⟩
  · intro h1 h2
    rw [bhkDisplayDocument, if_neg h1, if_neg h2]
  · intro h1 h2
    rw [bhkDisplayPreview, if_neg (by simpa using h1), if_neg h2]

/-- C7 witness: the amended theorem's unrecognized-value clauses at the
concrete stored value `"5bhk"`. -/
theorem claim_C7_witness :
    bhkDisplayDocument "5bhk".toList = [] ∧
    bhkDisplayPreview "5bhk".toList = "4 BHK".toList :=
  ⟨(claim_C7_amended "5bhk".toList).2.2.1 (by decide) (by decide),
    (claim_C7_amended "5bhk".toList).2.2.2.2.2 (by decide) (by decide)⟩

/-- C8: the residential-status checkbox group renders three checkboxes of
which at most one is checked; a checkbox is checked exactly when the stored
value equals its enumerated value by exact string equality, and none is
checked when the value matches none of the three. -/
theorem claim_C8_checkbox_exclusive (st : Str) :
    (residentialCheckboxes st).count true ≤ 1 ∧
    (residentialCheckboxes st).length = 3 ∧
    ((residentialCheckboxes st).getD 0 false = true ↔ st = residentStr) ∧
    ((residentialCheckboxes st).getD 1 false = true ↔ st = nonResidentStr) ∧
    ((residentialCheckboxes st).getD 2 false = true ↔ st = foreignOriginStr) ∧
    (st ≠ residentStr → st ≠ nonResidentStr → st ≠ foreignOriginStr →
      residentialCheckboxes st = [false, false, false]) := by
  refine ⟨?_, rfl, by simp [residentialCheckboxes], by simp [residentialCheckboxes],
    by simp [residentialCheckboxes], ?_⟩
  · by_cases h1 : st = residentStr
    · subst h1; decide
    · by_cases h2 : st = nonResidentStr
      · subst h2; decide
      · by_cases h3 : st = foreignOriginStr
        · subst h3; decide
        · simp [residentialCheckboxes, h1, h2, h3]
  · intro h1 h2 h3
    simp [residentialCheckboxes, h1, h2, h3]

/-- C8 witness: the unmatched-value clause of `claim_C8_checkbox_exclusive`
at the concrete stored value `"X"`. -/
theorem claim_C8_witness :
    residentialCheckboxes "X".toList = [false, false, false] :=
  (claim_C8_checkbox_exclusive "X".toList).2.2.2.2.2 (by decide) (by decide) (by decide)

/-- C9: for every applicant number, both the document backends' and the
preview's applicant-block renderer are total and produce empty output when
the applicant record itself is null or undefined — including the primary
slot (`applicantNumber = 1`). -/
theorem claim_C9_null_applicant (n : Nat) :
    documentRendersApplicant none n = false ∧
    previewApplicantFormRenders none n = false :=
  ⟨rfl, rfl⟩

/-- C10: no cell of any row produced by the multi-row tokenizer ever holds
a newline character: the regex-based chunking splits on runs of non-newline
characters, so newlines never occupy a cell. -/
theorem claim_C10_no_newline_in_cells (s : Str) (c r i j : Nat) :
    ((multiRowCells s c r).getD i []).getD j none ≠ some '\n' := by
  unfold multiRowCells
  by_cases hir : i < r
  · have hrow :
        (List.map (fun i => tokenizeRow (some ((jsChunks c s).getD i [])) c)
            (List.range r)).getD i [] =
          tokenizeRow (some ((jsChunks c s).getD i [])) c := by
      rw [List.getD_eq_getElem?_getD, List.getElem?_map, List.getElem?_range hir]
      rfl
    rw [hrow]
    apply tokenizeRow_getD_ne_newline
    rcases Nat.lt_or_ge i (jsChunks c s).length with hi | hi
    · intro hmem
      have hchunk : (jsChunks c s).getD i [] ∈ jsChunks c s := by
        rw [List.getD_eq_getElem _ _ hi]
        exact List.getElem_mem hi
      exact absurd (jsChunks_no_terminator hchunk hmem) (by decide)
    · rw [List.getD_eq_default _ _ hi]
      simp
  · have hrow :
        (List.map (fun i => tokenizeRow (some ((jsChunks c s).getD i [])) c)
            (List.range r)).getD i [] = [] := by
      apply List.getD_eq_default
      rw [List.length_map, List.length_range]
      omega
    rw [hrow]
    simp

end SuncityForm
